import Mathlib

/-!
# Verification of the OpenTelemetry span-correlation extension

Shallow embedding of `src/opentelemetry_extension/extension.py`, the span
lifecycle correlation engine of the repository: the ingress hook
`add_request_tracing` and the egress hook `finish_request_tracing` of the
`OpenTelemetryExtension` class, together with the external collaborators they
call into.

Modelling conventions:

* Header maps (Werkzeug `Headers`, case-insensitive) are modelled as functions
  `String → Option String`; keys are kept in canonical lower-case form, which is
  what every access in the source uses (the only key touched is `"traceparent"`).
* The configured propagator is the library default W3C trace-context text-map
  propagator.  Its `extract` performs an (unanchored) regular-expression search
  for the `traceparent` grammar and validates it; its `inject` writes the
  canonical `00-<32 hex>-<16 hex>-<2 hex>` form and is a *no-op* when the
  context carries no valid span (the `INVALID_SPAN_CONTEXT` early return).
  The `tracestate` member and the baggage member of the composite propagator
  carry no span-correlation data and are not modelled; carriers are considered
  without baggage entries.
* The SDK tracer's `start_span` is modelled at the interface level of the spec
  (`createSpan(name, parentContext?) -> Span`): the randomly generated trace and
  span identifiers are passed in as explicit oracle arguments `ftid`/`fsid`,
  the new span inherits the parent's trace identifier when the parent span
  context is valid (both identifiers non-zero), and the sampled flag follows the
  default parent-based sampler (root spans sampled, children inherit the
  parent's sampled bit).  Recording/export of span data is backend-internal and
  out of scope; `set_attributes` stores the attribute pairs on the span record
  and `span.end()` is modelled as an append to an end-event log, so that the
  number of `end()` calls is observable.
* Python mutation is modelled by explicit state passing; the extension state
  holds the `tracer` readiness flag, the `span_map` registry, the end-event log
  and a log of `LOG.warning`/`LOG.error` calls issued by the two hooks.  The
  unused `depths` counter and the debugging header-logging handlers are not part
  of the modelled hooks.
* The single place in either hook that can raise (`headers["traceparent"]`, a
  `KeyError` when the propagator injected nothing) is modelled in the `Except`
  monad; every silent early exit of the source is a normal `.ok` return.
-/

namespace OTelExt

/-! ## Hexadecimal characters (the regex class `[0-9a-f]` and Python `{:0wx}`) -/

/-- Membership in the character class `[0-9a-f]` of the traceparent regular
expression (code points 48–57 are `0`–`9`, 97–102 are `a`–`f`). -/
def isLowerHex (c : Char) : Bool :=
  (48 ≤ c.toNat && c.toNat ≤ 57) || (97 ≤ c.toNat && c.toNat ≤ 102)

/-- Membership in the character class `[ \t]` framing the traceparent value. -/
def isWsTab (c : Char) : Bool := c == ' ' || c == '\t'

/-- Numeric value of a lower-case hexadecimal digit, as used by `int(s, 16)`
on the regex groups (only ever applied to `[0-9a-f]` characters). -/
def hexVal (c : Char) : Nat := if c.toNat ≤ 57 then c.toNat - 48 else c.toNat - 87

/-- Lower-case hexadecimal digit for a value below 16 (Python `x` format). -/
def hexChar (n : Nat) : Char := if n < 10 then Char.ofNat (48 + n) else Char.ofNat (87 + n)

/-- Value of a big-endian string of hexadecimal digits. -/
def hexListToNat : List Char → Nat
  | [] => 0
  | c :: cs => hexVal c * 16 ^ cs.length + hexListToNat cs

/-- Worker for the minimal hexadecimal rendering of a natural number; the fuel
argument only bounds the recursion and is irrelevant once it exceeds the number
of digits. -/
def toHexMinGo : Nat → Nat → List Char → List Char
  | 0, _, acc => acc
  | fuel + 1, n, acc =>
    if n < 16 then hexChar n :: acc
    else toHexMinGo fuel (n / 16) (hexChar (n % 16) :: acc)

/-- Minimal (no leading zero) lower-case hexadecimal rendering of `n`;
`toHexMin 0 = ['0']`, matching Python `"{:x}".format`. -/
def toHexMin (n : Nat) : List Char := toHexMinGo (n + 1) n []

/-- Python `"{:0wx}".format n`: the minimal hexadecimal rendering left-padded
with `'0'` to width `w` (and longer than `w` when `n` does not fit). -/
def pyHex (w n : Nat) : List Char :=
  List.replicate (w - (toHexMin n).length) '0' ++ toHexMin n

/-! ## Trace contexts and the W3C traceparent codec -/

/-- The span-identifying data carried by a W3C `traceparent` value and by every
OpenTelemetry span context: trace identifier, span identifier and trace flags. -/
structure SpanContext where
  traceId : Nat
  spanId : Nat
  traceFlags : Nat
deriving DecidableEq, Repr

/-- The canonical textual form written by the propagator's `inject`:
`"00-{:032x}-{:016x}-{:02x}".format(trace_id, span_id, trace_flags)`. -/
def serializeSC (sc : SpanContext) : String :=
  String.mk ('0' :: '0' :: '-' ::
    (pyHex 32 sc.traceId ++ '-' :: (pyHex 16 sc.spanId ++ '-' :: pyHex 2 sc.traceFlags)))

/-- Consume exactly `n` characters of the class `[0-9a-f]` (the `{n}` counted
repetitions in the traceparent regex), returning them and the remainder. -/
def takeHexN : Nat → List Char → Option (List Char × List Char)
  | 0, cs => some ([], cs)
  | _ + 1, [] => none
  | n + 1, c :: cs =>
    if isLowerHex c then
      match takeHexN n cs with
      | some (h, r) => some (c :: h, r)
      | none => none
    else none

/-- Consume a literal `-`. -/
def expectDash : List Char → Option (List Char)
  | '-' :: cs => some cs
  | _ => none

/-- Whether the optional `(-.*)` group of the traceparent regex is present:
the character following the flags field is a `-`. -/
def startsWithDash : List Char → Bool
  | '-' :: _ => true
  | _ => false

/-- The capture groups of the traceparent regular expression
`[ \t]*(?P<version>[0-9a-f]{2})-(?P<trace_id>[0-9a-f]{32})-(?P<span_id>[0-9a-f]{16})-(?P<trace_flags>[0-9a-f]{2})(-.*)?[ \t]*`. -/
structure TpGroups where
  ver : List Char
  tid : List Char
  sid : List Char
  flg : List Char
  restPresent : Bool

/-- Match the traceparent pattern at one starting position.  The leading
`[ \t]*` is greedy and cannot backtrack usefully (a blank is never a hex
digit), the counted hex groups are fixed-length, and nothing after the optional
`(-.*)` group is required, so the regex engine's behaviour at a position is
exactly this deterministic sequence. -/
def matchFrom (cs0 : List Char) : Option TpGroups := do
  let (ver, r1) ← takeHexN 2 (cs0.dropWhile isWsTab)
  let r2 ← expectDash r1
  let (tid, r3) ← takeHexN 32 r2
  let r4 ← expectDash r3
  let (sid, r5) ← takeHexN 16 r4
  let r6 ← expectDash r5
  let (flg, r7) ← takeHexN 2 r6
  pure ⟨ver, tid, sid, flg, startsWithDash r7⟩

/-- `re.search`: the leftmost position at which the traceparent pattern
matches, if any. -/
def searchTp : List Char → Option TpGroups
  | [] => none
  | c :: cs =>
    match matchFrom (c :: cs) with
    | some g => some g
    | none => searchTp cs

/-- `TraceContextTextMapPropagator.extract` applied to one header value: search
for the traceparent pattern, then apply the validity checks of the propagator
(all-zero trace or span identifier, version `00` with trailing data, version
`ff`), and build the span context from the groups. -/
def parseTp (s : String) : Option SpanContext :=
  match searchTp s.data with
  | none => none
  | some g =>
    if g.tid = List.replicate 32 '0' then none
    else if g.sid = List.replicate 16 '0' then none
    else if g.ver = ['0', '0'] && g.restPresent then none
    else if g.ver = ['f', 'f'] then none
    else some ⟨hexListToNat g.tid, hexListToNat g.sid, hexListToNat g.flg⟩

/-! ## Header carriers -/

/-- A header map; keys are kept in canonical lower-case form (the carrier is
case-insensitive and the modelled code only ever touches `"traceparent"`). -/
abbrev Headers := String → Option String

/-- Case-insensitive carrier read (`carrier.get(key)`). -/
def hget (h : Headers) (k : String) : Option String := h k

/-- Carrier write (`carrier[key] = value`): replaces any existing value. -/
def hset (h : Headers) (k v : String) : Headers :=
  fun q => if q = k then some v else h q

/-- A carrier with no entries. -/
def emptyHeaders : Headers := fun _ => none

/-- `propagator.extract(headers)`, reduced to the span slot of the returned
`Context`: `none` models the empty context returned when the header is missing
or malformed (a falsy dict), `some sc` models a context holding the
`NonRecordingSpan` built from the parsed header. -/
def extract (h : Headers) : Option SpanContext :=
  match hget h "traceparent" with
  | none => none
  | some s => parseTp s

/-- `propagator.inject(headers, context)`: a no-op when the context carries no
span or the span context equals `INVALID_SPAN_CONTEXT` (all components zero);
otherwise writes the canonical textual form under `"traceparent"`. -/
def inject (h : Headers) (c : Option SpanContext) : Headers :=
  match c with
  | none => h
  | some sc =>
    if sc.traceId = 0 ∧ sc.spanId = 0 ∧ sc.traceFlags = 0 then h
    else hset h "traceparent" (serializeSC sc)

/-! ## Spans, the tracer and the extension state -/

/-- A span handle as the correlation engine sees it: name, own span context,
parent span context (if any) and the attributes attached to it. -/
structure SpanRec where
  name : String
  spanContext : SpanContext
  parent : Option SpanContext
  attributes : List (String × String)
deriving DecidableEq, Repr

/-- `tracer.start_span(name, context)` with the SDK's randomly generated
identifiers passed in as `ftid`/`fsid`: when the context carries a valid parent
span context (both identifiers non-zero) the new span is its child and inherits
its trace identifier and sampled bit (default parent-based sampler); otherwise
the new span is a root span on a fresh trace, sampled. -/
def start_span (name : String) (context : Option SpanContext) (ftid fsid : Nat) : SpanRec :=
  match context with
  | some p =>
    if p.traceId ≠ 0 ∧ p.spanId ≠ 0 then
      { name := name
        spanContext := ⟨p.traceId, fsid, if p.traceFlags % 2 = 1 then 1 else 0⟩
        parent := some p
        attributes := [] }
    else
      { name := name, spanContext := ⟨ftid, fsid, 1⟩, parent := none, attributes := [] }
  | none =>
    { name := name, spanContext := ⟨ftid, fsid, 1⟩, parent := none, attributes := [] }

/-- `ctx.service`: rendered form (`str`, used in the span name f-string) and
`service_name` (used in the span attributes). -/
structure ServiceModel where
  str : String
  serviceName : String
deriving DecidableEq, Repr

/-- `ctx.operation`: rendered form (`str`) and operation `name`. -/
structure OperationModel where
  str : String
  name : String
deriving DecidableEq, Repr

/-- The fields of the LocalStack `RequestContext` read by the hooks; `none`
models a falsy (`None`) field.  `request` is reduced to its header map, the
only part the hooks touch. -/
structure RequestCtx where
  request : Option Headers
  service : Option ServiceModel
  operation : Option OperationModel

/-- The response object, reduced to its header map. -/
structure Response where
  headers : Headers

/-- Python logging severities used by the two hooks. -/
inductive LogLevel where
  | warning
  | error
deriving DecidableEq, Repr

/-- The mutable extension state: tracer readiness (`self.tracer`), the
`self.span_map` registry from correlation key to `(span, parent context)`,
the log of `span.end()` events (identified by the ended span's context), and
the `LOG` messages emitted by the hooks. -/
structure ExtState where
  tracer : Bool
  spanMap : String → Option (SpanRec × Option SpanContext)
  endedLog : List SpanContext
  log : List (LogLevel × String)

/-! ## The two hooks -/

/-- `OpenTelemetryExtension.add_request_tracing` (ingress hook).  Returns the
updated extension state, request context and response; the only possible raise
is the `KeyError` of `headers["traceparent"]` when the propagator injected
nothing. -/
def add_request_tracing (st : ExtState) (ctx : RequestCtx) (resp : Response)
    (ftid fsid : Nat) : Except String (ExtState × RequestCtx × Response) :=
  if st.tracer then
    match ctx.request with
    | none => .ok (st, ctx, resp)
    | some headers =>
      match ctx.service with
      | none => .ok (st, ctx, resp)
      | some service =>
        match ctx.operation with
        | none => .ok (st, ctx, resp)
        | some operation =>
          let name := service.str ++ "." ++ operation.str
          let trace_context := extract headers
          let st1 : ExtState :=
            if trace_context.isSome then
              { st with log := st.log ++ [(LogLevel.warning, "request: trace context found")] }
            else
              { st with log :=
                  st.log ++ [(LogLevel.warning, "request: no trace context found, creating root span")] }
          let span0 : SpanRec :=
            if trace_context.isSome then
              start_span name trace_context ftid fsid
            else
              start_span "root" trace_context ftid fsid
          let span : SpanRec :=
            { span0 with attributes :=
                span0.attributes ++ [("service", service.serviceName), ("operation", operation.name)] }
          let new_context : Option SpanContext := some span.spanContext
          let headers1 := inject headers new_context
          match hget headers1 "traceparent" with
          | none => .error "KeyError: traceparent"
          | some tp =>
            .ok
              ({ st1 with spanMap :=
                  fun q => if q = tp then some (span, trace_context) else st1.spanMap q },
               { ctx with request := some headers1 },
               { resp with headers := hset resp.headers "traceparent" tp })
  else .ok (st, ctx, resp)

/-- `OpenTelemetryExtension.finish_request_tracing` (egress hook).  The
`span_map.pop(traceparent, None)` with a `None` key (no `traceparent` header
although extraction succeeded) always misses on the string-keyed map and is
modelled by the corresponding silent return. -/
def finish_request_tracing (st : ExtState) (ctx : RequestCtx) (resp : Response) :
    Except String (ExtState × RequestCtx × Response) :=
  if st.tracer then
    match ctx.request with
    | none => .ok (st, ctx, resp)
    | some _ =>
      let trace_context := extract resp.headers
      if trace_context.isSome then
        let st1 : ExtState :=
          { st with log := st.log ++ [(LogLevel.warning, "response: trace context found")] }
        match hget resp.headers "traceparent" with
        | none => .ok (st1, ctx, resp)
        | some tp =>
          match st1.spanMap tp with
          | none => .ok (st1, ctx, resp)
          | some (span, old_context) =>
            let st2 : ExtState :=
              { st1 with
                  spanMap := fun q => if q = tp then none else st1.spanMap q
                  endedLog := st1.endedLog ++ [span.spanContext] }
            .ok (st2, ctx, { resp with headers := inject resp.headers old_context })
      else
        .ok ({ st with log := st.log ++ [(LogLevel.error, "response: no trace context found")] },
             ctx, resp)
  else .ok (st, ctx, resp)

/-- The begin/end composition on one request/response pair: run the ingress
hook, then the egress hook on its results. -/
def beginThenEnd (st : ExtState) (ctx : RequestCtx) (resp : Response)
    (ftid fsid : Nat) : Except String (ExtState × RequestCtx × Response) :=
  match add_request_tracing st ctx resp ftid fsid with
  | .error e => .error e
  | .ok (st1, ctx1, resp1) => finish_request_tracing st1 ctx1 resp1

/-! ## Derived descriptions of a successful `begin` -/

/-- The span built by a `begin` call that passes all early exits: the branch on
the extracted context, the `start_span` call and the `set_attributes` call of
the source, as one value. -/
def mkBeganSpan (hdrs : Headers) (svc : ServiceModel) (op : OperationModel)
    (ftid fsid : Nat) : SpanRec :=
  let trace_context := extract hdrs
  let span0 :=
    if trace_context.isSome then
      start_span (svc.str ++ "." ++ op.str) trace_context ftid fsid
    else
      start_span "root" trace_context ftid fsid
  { span0 with attributes :=
      span0.attributes ++ [("service", svc.serviceName), ("operation", op.name)] }

/-- The correlation key of a successful `begin`: the canonical textual form of
the new span's context, i.e. the header value the propagator injected. -/
def mkBeganKey (hdrs : Headers) (svc : ServiceModel) (op : OperationModel)
    (ftid fsid : Nat) : String :=
  serializeSC (mkBeganSpan hdrs svc op ftid fsid).spanContext

/-- The log line emitted by a `begin` call that passes all early exits. -/
def beginLogEntry (hdrs : Headers) : LogLevel × String :=
  if (extract hdrs).isSome then (LogLevel.warning, "request: trace context found")
  else (LogLevel.warning, "request: no trace context found, creating root span")

/-- The `traceparent` value of the response produced by a run, or `none` when
the run raised; used to evaluate concrete executions in closed statements. -/
def runRespTp (r : Except String (ExtState × RequestCtx × Response)) : Option (Option String) :=
  match r with
  | .ok t => some (hget t.2.2.headers "traceparent")
  | .error _ => none

/-! ## Concrete sample inputs used to evaluate the theorems -/

/-- Sample service (`str` rendering and `service_name`). -/
def wSvc : ServiceModel := ⟨"sqs", "sqs"⟩

/-- Sample operation. -/
def wOp : OperationModel := ⟨"SendMessage", "SendMessage"⟩

/-- A canonical incoming traceparent value. -/
def wParentTp : String := "00-000000000000000000000000000004d2-000000000000162e-01"

/-- The span context carried by `wParentTp`. -/
def wParentSC : SpanContext := ⟨1234, 5678, 1⟩

/-- Request headers carrying `wParentTp`. -/
def wHdrsParent : Headers := fun k => if k = "traceparent" then some wParentTp else none

/-- Extension state with a configured tracer and an empty registry. -/
def wStReady : ExtState := ⟨true, fun _ => none, [], []⟩

/-- Extension state before the tracer is configured. -/
def wStOff : ExtState := ⟨false, fun _ => none, [], []⟩

/-- Request context carrying the parent traceparent. -/
def wCtxParent : RequestCtx := ⟨some wHdrsParent, some wSvc, some wOp⟩

/-- Request context with no incoming headers. -/
def wCtxRoot : RequestCtx := ⟨some emptyHeaders, some wSvc, some wOp⟩

/-- Response with no headers yet. -/
def wResp : Response := ⟨emptyHeaders⟩

/-- A child traceparent value, as injected by a `begin` with `fsid = 3` under
the `wParentTp` parent. -/
def wChildTp : String := "00-000000000000000000000000000004d2-0000000000000003-01"

/-- The span context carried by `wChildTp`. -/
def wChildSC : SpanContext := ⟨1234, 3, 1⟩

/-- The child span registered under `wChildTp`. -/
def wSpan : SpanRec :=
  ⟨"sqs.SendMessage", wChildSC, some wParentSC, [("service", "sqs"), ("operation", "SendMessage")]⟩

/-- Extension state whose registry holds exactly the `wChildTp` entry. -/
def wStEntry : ExtState :=
  ⟨true, fun q => if q = wChildTp then some (wSpan, some wParentSC) else none, [], []⟩

/-- A response carrying the `wChildTp` correlation key. -/
def wRespChild : Response := ⟨fun k => if k = "traceparent" then some wChildTp else none⟩

/-! ## Hexadecimal digit lemmas -/

theorem hexVal_hexChar (n : Nat) (h : n < 16) : hexVal (hexChar n) = n := by
  interval_cases n <;> decide

theorem isLowerHex_hexChar (n : Nat) (h : n < 16) : isLowerHex (hexChar n) = true := by
  interval_cases n <;> decide

theorem hexVal_lt (c : Char) (h : isLowerHex c = true) : hexVal c < 16 := by
  simp only [isLowerHex, Bool.or_eq_true, Bool.and_eq_true, decide_eq_true_eq] at h
  simp only [hexVal]
  rcases h with ⟨h1, h2⟩ | ⟨h1, h2⟩ <;> split <;> omega

theorem hexVal_eq_zero (c : Char) (h : isLowerHex c = true) (h0 : hexVal c = 0) : c = '0' := by
  simp only [isLowerHex, Bool.or_eq_true, Bool.and_eq_true, decide_eq_true_eq] at h
  simp only [hexVal] at h0
  have hc : c.toNat = 48 := by rcases h with ⟨h1, h2⟩ | ⟨h1, h2⟩ <;> split at h0 <;> omega
  exact Char.ext (UInt32.ext hc)

/-! ## Values of hexadecimal digit strings -/

theorem hexListToNat_append (a b : List Char) :
    hexListToNat (a ++ b) = hexListToNat a * 16 ^ b.length + hexListToNat b := by
  induction a with
  | nil => simp [hexListToNat]
  | cons c a ih =>
    simp only [List.cons_append, hexListToNat, ih, List.append_eq, List.length_append]
    rw [pow_add]
    ring

theorem hexListToNat_replicate_zero (w : Nat) : hexListToNat (List.replicate w '0') = 0 := by
  induction w with
  | zero => rfl
  | succ w ih =>
    have h0 : hexVal '0' = 0 := by decide
    simp [List.replicate_succ, hexListToNat, ih, h0]

theorem hexListToNat_lt (l : List Char) (h : ∀ c ∈ l, isLowerHex c = true) :
    hexListToNat l < 16 ^ l.length := by
  induction l with
  | nil => simp [hexListToNat]
  | cons c l ih =>
    have hc : hexVal c < 16 := hexVal_lt c (h c (by simp))
    have hl : hexListToNat l < 16 ^ l.length := ih (fun x hx => h x (by simp [hx]))
    simp only [hexListToNat, List.length_cons, pow_succ]
    calc hexVal c * 16 ^ l.length + hexListToNat l
        < hexVal c * 16 ^ l.length + 16 ^ l.length := by omega
      _ = (hexVal c + 1) * 16 ^ l.length := by ring
      _ ≤ 16 * 16 ^ l.length := Nat.mul_le_mul_right _ (by omega)
      _ = 16 ^ l.length * 16 := by ring

theorem hexListToNat_eq_zero (l : List Char) (h : ∀ c ∈ l, isLowerHex c = true)
    (h0 : hexListToNat l = 0) : l = List.replicate l.length '0' := by
  induction l with
  | nil => rfl
  | cons c l ih =>
    simp only [hexListToNat] at h0
    have hp : 0 < 16 ^ l.length := Nat.pos_pow_of_pos _ (by omega)
    have hc0 : hexVal c = 0 := by
      rcases Nat.mul_eq_zero.mp (by omega : hexVal c * 16 ^ l.length = 0) with hz | hz
      · exact hz
      · omega
    have hc : c = '0' := hexVal_eq_zero c (h c (by simp)) hc0
    have hrest : hexListToNat l = 0 := by omega
    rw [hc, List.length_cons, List.replicate_succ]
    exact congrArg _ (ih (fun x hx => h x (by simp [hx])) hrest)

/-! ## The minimal hexadecimal rendering and Python zero-padding -/

theorem toHexMinGo_append (fuel : Nat) :
    ∀ n acc, toHexMinGo fuel n acc = toHexMinGo fuel n [] ++ acc := by
  induction fuel with
  | zero => intro n acc; simp [toHexMinGo]
  | succ fuel ih =>
    intro n acc
    by_cases h : n < 16
    · simp [toHexMinGo, h]
    · simp only [toHexMinGo, if_neg h]
      rw [ih (n / 16) (hexChar (n % 16) :: acc), ih (n / 16) [hexChar (n % 16)]]
      simp

theorem toHexMinGo_fuel :
    ∀ n f1 f2, n < f1 → n < f2 → toHexMinGo f1 n [] = toHexMinGo f2 n [] := by
  intro n
  induction n using Nat.strong_induction_on with
  | _ n ih =>
    intro f1 f2 h1 h2
    cases f1 with
    | zero => omega
    | succ f1 =>
      cases f2 with
      | zero => omega
      | succ f2 =>
        by_cases h : n < 16
        · simp [toHexMinGo, h]
        · simp only [toHexMinGo, if_neg h]
          rw [toHexMinGo_append f1, toHexMinGo_append f2]
          have hd : n / 16 < n := Nat.div_lt_self (by omega) (by omega)
          rw [ih (n / 16) hd f1 f2 (by omega) (by omega)]

theorem toHexMin_eq_lt (n : Nat) (h : n < 16) : toHexMin n = [hexChar n] := by
  simp [toHexMin, toHexMinGo, h]

theorem toHexMin_eq_ge (n : Nat) (h : 16 ≤ n) :
    toHexMin n = toHexMin (n / 16) ++ [hexChar (n % 16)] := by
  have h16 : ¬ n < 16 := by omega
  have hd : n / 16 < n := Nat.div_lt_self (by omega) (by omega)
  calc toHexMin n = toHexMinGo n (n / 16) [hexChar (n % 16)] := by
        simp [toHexMin, toHexMinGo, h16]
    _ = toHexMinGo n (n / 16) [] ++ [hexChar (n % 16)] := toHexMinGo_append n _ _
    _ = toHexMin (n / 16) ++ [hexChar (n % 16)] := by
        rw [toHexMinGo_fuel (n / 16) n (n / 16 + 1) (by omega) (by omega)]
        rfl

theorem hexListToNat_toHexMin (n : Nat) : hexListToNat (toHexMin n) = n := by
  induction n using Nat.strong_induction_on with
  | _ n ih =>
    by_cases h : n < 16
    · rw [toHexMin_eq_lt n h]
      simp [hexListToNat, hexVal_hexChar n h]
    · rw [toHexMin_eq_ge n (by omega), hexListToNat_append]
      have hd : n / 16 < n := Nat.div_lt_self (by omega) (by omega)
      rw [ih (n / 16) hd]
      simp [hexListToNat, hexVal_hexChar (n % 16) (by omega)]
      omega

theorem toHexMin_mem_hex (n : Nat) : ∀ c ∈ toHexMin n, isLowerHex c = true := by
  induction n using Nat.strong_induction_on with
  | _ n ih =>
    intro c hc
    by_cases h : n < 16
    · rw [toHexMin_eq_lt n h] at hc
      simp at hc
      rw [hc]
      exact isLowerHex_hexChar n h
    · rw [toHexMin_eq_ge n (by omega)] at hc
      have hd : n / 16 < n := Nat.div_lt_self (by omega) (by omega)
      rcases List.mem_append.mp hc with hm | hm
      · exact ih (n / 16) hd c hm
      · simp at hm
        rw [hm]
        exact isLowerHex_hexChar (n % 16) (by omega)

theorem toHexMin_length_le (n w : Nat) (hw : 1 ≤ w) (h : n < 16 ^ w) :
    (toHexMin n).length ≤ w := by
  induction n using Nat.strong_induction_on generalizing w with
  | _ n ih =>
    by_cases hn : n < 16
    · rw [toHexMin_eq_lt n hn]
      simpa using hw
    · rw [toHexMin_eq_ge n (by omega)]
      have hd : n / 16 < n := Nat.div_lt_self (by omega) (by omega)
      cases w with
      | zero => omega
      | succ w =>
        have hw1 : 1 ≤ w := by
          by_contra hw0
          have : w = 0 := by omega
          rw [this] at h
          simp [pow_succ] at h
          omega
        have hb : n / 16 < 16 ^ w := by
          rw [pow_succ'] at h
          exact Nat.div_lt_of_lt_mul h
        have := ih (n / 16) hd w hw1 hb
        simp [List.length_append]
        omega

theorem pyHex_length (w n : Nat) (hw : 1 ≤ w) (h : n < 16 ^ w) : (pyHex w n).length = w := by
  have := toHexMin_length_le n w hw h
  simp [pyHex, List.length_append, List.length_replicate]
  omega

theorem pyHex_hex (w n : Nat) : ∀ c ∈ pyHex w n, isLowerHex c = true := by
  intro c hc
  rcases List.mem_append.mp hc with hm | hm
  · have := List.eq_of_mem_replicate hm
    rw [this]
    decide
  · exact toHexMin_mem_hex n c hm

theorem hexListToNat_pyHex (w n : Nat) : hexListToNat (pyHex w n) = n := by
  simp [pyHex, hexListToNat_append, hexListToNat_replicate_zero, hexListToNat_toHexMin]

theorem pyHex_ne_replicate (w n : Nat) (h : n ≠ 0) : pyHex w n ≠ List.replicate w '0' := by
  intro he
  apply h
  have := congrArg hexListToNat he
  rw [hexListToNat_pyHex, hexListToNat_replicate_zero] at this
  exact this

/-! ## Soundness of the traceparent pattern matcher -/

theorem takeHexN_append (h r : List Char) (hh : ∀ c ∈ h, isLowerHex c = true) :
    takeHexN h.length (h ++ r) = some (h, r) := by
  induction h with
  | nil => rfl
  | cons c h ih =>
    simp only [List.length_cons, List.cons_append, takeHexN, List.append_eq]
    rw [if_pos (hh c (by simp)), ih (fun x hx => hh x (by simp [hx]))]

theorem takeHexN_sound :
    ∀ (n : Nat) (cs h r : List Char), takeHexN n cs = some (h, r) →
      cs = h ++ r ∧ h.length = n ∧ ∀ c ∈ h, isLowerHex c = true := by
  intro n
  induction n with
  | zero =>
    intro cs h r he
    simp only [takeHexN, Option.some.injEq, Prod.mk.injEq] at he
    obtain ⟨rfl, rfl⟩ := he
    simp
  | succ n ih =>
    intro cs h r he
    cases cs with
    | nil => simp [takeHexN] at he
    | cons c cs =>
      simp only [takeHexN] at he
      by_cases hc : isLowerHex c = true
      · rw [if_pos hc] at he
        cases hm : takeHexN n cs with
        | none => rw [hm] at he; simp at he
        | some pr =>
          obtain ⟨h1, r1⟩ := pr
          rw [hm] at he
          simp only [Option.some.injEq, Prod.mk.injEq] at he
          obtain ⟨he1, he2⟩ := he
          subst he1
          subst he2
          obtain ⟨hcs, hlen, hhex⟩ := ih cs h1 r1 hm
          refine ⟨by simp [hcs], by simp [hlen], ?_⟩
          intro x hx
          rcases List.mem_cons.mp hx with rfl | hx2
          · exact hc
          · exact hhex x hx2
      · rw [if_neg hc] at he
        simp at he

theorem matchFrom_sound (cs : List Char) (g : TpGroups) (h : matchFrom cs = some g) :
    (g.tid.length = 32 ∧ ∀ c ∈ g.tid, isLowerHex c = true) ∧
      (g.sid.length = 16 ∧ ∀ c ∈ g.sid, isLowerHex c = true) ∧
      (g.flg.length = 2 ∧ ∀ c ∈ g.flg, isLowerHex c = true) := by
  unfold matchFrom at h
  simp only [bind, Option.bind_eq_some, Option.pure_def, Option.some.injEq] at h
  obtain ⟨⟨ver, r1⟩, h2, ⟨r2, hd1, ⟨⟨tid, r3⟩, h32, ⟨r4, hd2, ⟨⟨sid, r5⟩, h16,
    ⟨r6, hd3, ⟨⟨flg, r7⟩, hf, hg⟩⟩⟩⟩⟩⟩⟩ := h
  subst hg
  obtain ⟨-, ht2, ht3⟩ := takeHexN_sound 32 r2 tid r3 h32
  obtain ⟨-, hs2, hs3⟩ := takeHexN_sound 16 r4 sid r5 h16
  obtain ⟨-, hf2, hf3⟩ := takeHexN_sound 2 r6 flg r7 hf
  exact ⟨⟨ht2, ht3⟩, ⟨hs2, hs3⟩, ⟨hf2, hf3⟩⟩

theorem searchTp_sound (cs : List Char) (g : TpGroups) (h : searchTp cs = some g) :
    ∃ cs2, matchFrom cs2 = some g := by
  induction cs with
  | nil => simp [searchTp] at h
  | cons c cs ih =>
    cases hm : matchFrom (c :: cs) with
    | some g2 =>
      simp only [searchTp, hm, Option.some.injEq] at h
      exact ⟨c :: cs, by rw [hm, h]⟩
    | none =>
      simp only [searchTp, hm] at h
      exact ih h

/-- Every span context produced by the traceparent parser is a valid remote
parent: both identifiers are non-zero and all three fields fit their widths. -/
theorem parseTp_valid (s : String) (sc : SpanContext) (h : parseTp s = some sc) :
    sc.traceId ≠ 0 ∧ sc.traceId < 16 ^ 32 ∧ sc.spanId ≠ 0 ∧ sc.spanId < 16 ^ 16 ∧
      sc.traceFlags < 16 ^ 2 := by
  cases hs : searchTp s.data with
  | none => simp [parseTp, hs] at h
  | some g =>
    simp only [parseTp, hs] at h
    obtain ⟨cs2, hm⟩ := searchTp_sound _ _ hs
    obtain ⟨⟨htl, hth⟩, ⟨hsl, hsh⟩, ⟨hfl, hfh⟩⟩ := matchFrom_sound _ _ hm
    by_cases hz1 : g.tid = List.replicate 32 '0'
    · rw [if_pos hz1] at h; simp at h
    · rw [if_neg hz1] at h
      by_cases hz2 : g.sid = List.replicate 16 '0'
      · rw [if_pos hz2] at h; simp at h
      · rw [if_neg hz2] at h
        by_cases hz3 : (g.ver = ['0', '0'] && g.restPresent) = true
        · rw [if_pos hz3] at h; simp at h
        · rw [if_neg hz3] at h
          by_cases hz4 : g.ver = ['f', 'f']
          · rw [if_pos hz4] at h; simp at h
          · rw [if_neg hz4] at h
            simp only [Option.some.injEq] at h
            subst h
            refine ⟨?_, ?_, ?_, ?_, ?_⟩
            · intro h0
              apply hz1
              have := hexListToNat_eq_zero g.tid hth h0
              rwa [htl] at this
            · have := hexListToNat_lt g.tid hth
              rwa [htl] at this
            · intro h0
              apply hz2
              have := hexListToNat_eq_zero g.sid hsh h0
              rwa [hsl] at this
            · have := hexListToNat_lt g.sid hsh
              rwa [hsl] at this
            · have := hexListToNat_lt g.flg hfh
              rwa [hfl] at this

/-- The validity facts for an extracted context, lifted through `extract`. -/
theorem extract_valid (h : Headers) (sc : SpanContext) (he : extract h = some sc) :
    sc.traceId ≠ 0 ∧ sc.traceId < 16 ^ 32 ∧ sc.spanId ≠ 0 ∧ sc.spanId < 16 ^ 16 ∧
      sc.traceFlags < 16 ^ 2 := by
  unfold extract at he
  cases hg : hget h "traceparent" with
  | none => rw [hg] at he; simp at he
  | some s => rw [hg] at he; exact parseTp_valid s sc he

/-! ## Round trip: the canonical form reparses to the same span context -/

theorem parseTp_serializeSC (sc : SpanContext) (h1 : sc.traceId ≠ 0) (h2 : sc.traceId < 16 ^ 32)
    (h3 : sc.spanId ≠ 0) (h4 : sc.spanId < 16 ^ 16) (h5 : sc.traceFlags < 16 ^ 2) :
    parseTp (serializeSC sc) = some sc := by
  obtain ⟨tid, sid, flg⟩ := sc
  simp only at h1 h2 h3 h4 h5
  have htl : (pyHex 32 tid).length = 32 := pyHex_length 32 tid (by omega) h2
  have hsl : (pyHex 16 sid).length = 16 := pyHex_length 16 sid (by omega) h4
  have hfl : (pyHex 2 flg).length = 2 := pyHex_length 2 flg (by omega) h5
  have hmatch :
      matchFrom ('0' :: '0' :: '-' ::
          (pyHex 32 tid ++ '-' :: (pyHex 16 sid ++ '-' :: pyHex 2 flg))) =
        some ⟨['0', '0'], pyHex 32 tid, pyHex 16 sid, pyHex 2 flg, false⟩ := by
    have hdw : ('0' :: '0' :: '-' ::
        (pyHex 32 tid ++ '-' :: (pyHex 16 sid ++ '-' :: pyHex 2 flg))).dropWhile isWsTab =
        '0' :: '0' :: '-' :: (pyHex 32 tid ++ '-' :: (pyHex 16 sid ++ '-' :: pyHex 2 flg)) := by
      have h0 : isWsTab '0' = false := by decide
      simp [List.dropWhile_cons, h0]
    have hv : takeHexN 2 ('0' :: '0' :: '-' ::
        (pyHex 32 tid ++ '-' :: (pyHex 16 sid ++ '-' :: pyHex 2 flg))) =
        some (['0', '0'], '-' :: (pyHex 32 tid ++ '-' :: (pyHex 16 sid ++ '-' :: pyHex 2 flg))) := by
      have := takeHexN_append ['0', '0']
        ('-' :: (pyHex 32 tid ++ '-' :: (pyHex 16 sid ++ '-' :: pyHex 2 flg))) (by decide)
      simpa using this
    have ht : takeHexN 32 (pyHex 32 tid ++ '-' :: (pyHex 16 sid ++ '-' :: pyHex 2 flg)) =
        some (pyHex 32 tid, '-' :: (pyHex 16 sid ++ '-' :: pyHex 2 flg)) := by
      have := takeHexN_append (pyHex 32 tid)
        ('-' :: (pyHex 16 sid ++ '-' :: pyHex 2 flg)) (pyHex_hex 32 tid)
      rwa [htl] at this
    have hs : takeHexN 16 (pyHex 16 sid ++ '-' :: pyHex 2 flg) =
        some (pyHex 16 sid, '-' :: pyHex 2 flg) := by
      have := takeHexN_append (pyHex 16 sid) ('-' :: pyHex 2 flg) (pyHex_hex 16 sid)
      rwa [hsl] at this
    have hf : takeHexN 2 (pyHex 2 flg) = some (pyHex 2 flg, []) := by
      have := takeHexN_append (pyHex 2 flg) [] (pyHex_hex 2 flg)
      rw [hfl] at this
      simpa using this
    unfold matchFrom
    rw [hdw, hv]
    simp [expectDash, ht, hs, hf, startsWithDash]
  have hsearch : searchTp ('0' :: '0' :: '-' ::
      (pyHex 32 tid ++ '-' :: (pyHex 16 sid ++ '-' :: pyHex 2 flg))) =
      some ⟨['0', '0'], pyHex 32 tid, pyHex 16 sid, pyHex 2 flg, false⟩ := by
    simp only [searchTp, hmatch]
  have hdata : (serializeSC ⟨tid, sid, flg⟩).data =
      '0' :: '0' :: '-' :: (pyHex 32 tid ++ '-' :: (pyHex 16 sid ++ '-' :: pyHex 2 flg)) := rfl
  have hne1 := pyHex_ne_replicate 32 tid h1
  have hne2 := pyHex_ne_replicate 16 sid h3
  simp only [parseTp, hdata, hsearch, if_neg hne1, if_neg hne2]
  norm_num [hexListToNat_pyHex]
  intro hc
  exact absurd hc (by decide)

/-! ## Carrier and context helper lemmas -/

theorem hget_hset_self (h : Headers) (k v : String) : hget (hset h k v) k = some v := by
  simp [hget, hset]

theorem hget_hset_other (h : Headers) (k v q : String) (hq : q ≠ k) :
    hget (hset h k v) q = h q := by
  simp [hget, hset, hq]

theorem extract_of_parse (h : Headers) (k : String) (c : SpanContext)
    (hk : hget h "traceparent" = some k) (hp : parseTp k = some c) : extract h = some c := by
  unfold extract
  rw [hk]
  exact hp

/-- No span produced by `start_span` has the all-zero `INVALID_SPAN_CONTEXT`:
a root span is sampled (flags 1) and a child span inherits a non-zero trace
identifier. -/
theorem start_span_not_invalid (name : String) (c : Option SpanContext) (ftid fsid : Nat) :
    ¬((start_span name c ftid fsid).spanContext.traceId = 0 ∧
      (start_span name c ftid fsid).spanContext.spanId = 0 ∧
      (start_span name c ftid fsid).spanContext.traceFlags = 0) := by
  match c with
  | none => simp [start_span]
  | some p =>
    by_cases hv : p.traceId ≠ 0 ∧ p.spanId ≠ 0
    · simp only [start_span, if_pos hv]
      intro hc
      exact hv.1 hc.1
    · simp [start_span, if_neg hv]

theorem inject_some (h : Headers) (sc : SpanContext)
    (hni : ¬(sc.traceId = 0 ∧ sc.spanId = 0 ∧ sc.traceFlags = 0)) :
    inject h (some sc) = hset h "traceparent" (serializeSC sc) := by
  simp [inject, hni]

/-! ## Reductions of a successful `begin` -/

theorem mkBeganSpan_of_some (hdrs : Headers) (svc : ServiceModel) (op : OperationModel)
    (ftid fsid : Nat) (p : SpanContext) (hx : extract hdrs = some p) :
    mkBeganSpan hdrs svc op ftid fsid =
      ⟨svc.str ++ "." ++ op.str,
       ⟨p.traceId, fsid, if p.traceFlags % 2 = 1 then 1 else 0⟩,
       some p,
       [("service", svc.serviceName), ("operation", op.name)]⟩ := by
  obtain ⟨htid, -, hsid, -, -⟩ := extract_valid hdrs p hx
  have hv : p.traceId ≠ 0 ∧ p.spanId ≠ 0 := ⟨htid, hsid⟩
  simp only [mkBeganSpan, hx, Option.isSome_some, if_true, start_span]
  rw [if_pos hv]
  rfl

theorem mkBeganSpan_of_none (hdrs : Headers) (svc : ServiceModel) (op : OperationModel)
    (ftid fsid : Nat) (hx : extract hdrs = none) :
    mkBeganSpan hdrs svc op ftid fsid =
      ⟨"root", ⟨ftid, fsid, 1⟩, none,
       [("service", svc.serviceName), ("operation", op.name)]⟩ := by
  simp only [mkBeganSpan, hx, Option.isSome_none, Bool.false_eq_true, if_false, start_span]
  rfl

/-- One-step characterization of a `begin` call that passes all early exits:
the hook returns normally, the registry gains one entry under the freshly
injected correlation key, the request headers carry the new key, and the
response headers carry the same key. -/
theorem add_request_tracing_run (st : ExtState) (ctx : RequestCtx) (resp : Response)
    (ftid fsid : Nat) (hdrs : Headers) (svc : ServiceModel) (op : OperationModel)
    (ht : st.tracer = true) (hr : ctx.request = some hdrs)
    (hs : ctx.service = some svc) (ho : ctx.operation = some op) :
    add_request_tracing st ctx resp ftid fsid = Except.ok
      ({ tracer := st.tracer
         spanMap := fun q => if q = mkBeganKey hdrs svc op ftid fsid
           then some (mkBeganSpan hdrs svc op ftid fsid, extract hdrs) else st.spanMap q
         endedLog := st.endedLog
         log := st.log ++ [beginLogEntry hdrs] },
       { ctx with request := some (hset hdrs "traceparent" (mkBeganKey hdrs svc op ftid fsid)) },
       { resp with headers := hset resp.headers "traceparent" (mkBeganKey hdrs svc op ftid fsid) }) := by
  cases hx : extract hdrs with
  | some p =>
    obtain ⟨htid, -, hsid, -, -⟩ := extract_valid hdrs p hx
    have hv : p.traceId ≠ 0 ∧ p.spanId ≠ 0 := ⟨htid, hsid⟩
    have hss : start_span (svc.str ++ "." ++ op.str) (some p) ftid fsid =
        ⟨svc.str ++ "." ++ op.str,
         ⟨p.traceId, fsid, if p.traceFlags % 2 = 1 then 1 else 0⟩, some p, []⟩ := by
      simp only [start_span]
      rw [if_pos hv]
    have hinj : inject hdrs (some (⟨p.traceId, fsid,
        if p.traceFlags % 2 = 1 then 1 else 0⟩ : SpanContext)) =
        hset hdrs "traceparent"
          (serializeSC ⟨p.traceId, fsid, if p.traceFlags % 2 = 1 then 1 else 0⟩) :=
      inject_some _ _ (by simp [htid])
    simp only [add_request_tracing, ht, if_true, hr, hs, ho, hx, Option.isSome_some,
      mkBeganKey, mkBeganSpan_of_some hdrs svc op ftid fsid p hx, beginLogEntry, hss,
      hinj, hget_hset_self, List.nil_append]
  | none =>
    have hinj : inject hdrs (some (⟨ftid, fsid, 1⟩ : SpanContext)) =
        hset hdrs "traceparent" (serializeSC ⟨ftid, fsid, 1⟩) :=
      inject_some _ _ (by simp)
    simp only [add_request_tracing, ht, if_true, hr, hs, ho, hx, Option.isSome_none,
      Bool.false_eq_true, if_false, mkBeganKey,
      mkBeganSpan_of_none hdrs svc op ftid fsid hx, beginLogEntry, start_span,
      hinj, hget_hset_self, List.nil_append]

/-! ## Reductions of the `end` hook, one per branch -/

/-- `end` when no trace context can be extracted from the response: report and
return, touching nothing else. -/
theorem finish_noContext_run (st : ExtState) (ctx : RequestCtx) (resp : Response)
    (hdrs : Headers) (ht : st.tracer = true) (hr : ctx.request = some hdrs)
    (hx : extract resp.headers = none) :
    finish_request_tracing st ctx resp = Except.ok
      ({ st with log := st.log ++ [(LogLevel.error, "response: no trace context found")] },
       ctx, resp) := by
  simp only [finish_request_tracing, ht, if_true, hr, hx, Option.isSome_none,
    Bool.false_eq_true, if_false]

/-- `end` when the response carries a parseable traceparent whose key is not in
the registry: log the found-context line and return silently. -/
theorem finish_miss_run (st : ExtState) (ctx : RequestCtx) (resp : Response)
    (hdrs : Headers) (k : String) (c : SpanContext)
    (ht : st.tracer = true) (hr : ctx.request = some hdrs)
    (hk : hget resp.headers "traceparent" = some k) (hp : parseTp k = some c)
    (hmiss : st.spanMap k = none) :
    finish_request_tracing st ctx resp = Except.ok
      ({ st with log := st.log ++ [(LogLevel.warning, "response: trace context found")] },
       ctx, resp) := by
  have hx : extract resp.headers = some c := extract_of_parse resp.headers k c hk hp
  simp only [finish_request_tracing, ht, if_true, hr, hx, Option.isSome_some, hk, hmiss]

/-- `end` when the response carries a parseable traceparent whose key is in the
registry: pop the entry, end the span once, and re-inject the stored parent
context into the response headers. -/
theorem finish_hit_run (st : ExtState) (ctx : RequestCtx) (resp : Response)
    (hdrs : Headers) (k : String) (c : SpanContext) (span : SpanRec)
    (oldc : Option SpanContext)
    (ht : st.tracer = true) (hr : ctx.request = some hdrs)
    (hk : hget resp.headers "traceparent" = some k) (hp : parseTp k = some c)
    (hhit : st.spanMap k = some (span, oldc)) :
    finish_request_tracing st ctx resp = Except.ok
      ({ tracer := st.tracer
         spanMap := fun q => if q = k then none else st.spanMap q
         endedLog := st.endedLog ++ [span.spanContext]
         log := st.log ++ [(LogLevel.warning, "response: trace context found")] },
       ctx, { resp with headers := inject resp.headers oldc }) := by
  have hx : extract resp.headers = some c := extract_of_parse resp.headers k c hk hp
  simp only [finish_request_tracing, ht, if_true, hr, hx, Option.isSome_some, hk, hhit]

/-- Composition of a successful `begin` with the matching `end`, assuming the
injected key reparses to the new span's context (which `parseTp_serializeSC`
provides whenever the generated identifiers are non-zero and in range): the
entry is popped, the span is ended once, the request context keeps the
injected headers, and the response headers are the begin-written headers with
the stored parent context re-injected. -/
theorem beginThenEnd_run (st : ExtState) (ctx : RequestCtx) (resp : Response)
    (ftid fsid : Nat) (hdrs : Headers) (svc : ServiceModel) (op : OperationModel)
    (ht : st.tracer = true) (hr : ctx.request = some hdrs)
    (hs : ctx.service = some svc) (ho : ctx.operation = some op)
    (hparse : parseTp (mkBeganKey hdrs svc op ftid fsid) =
      some (mkBeganSpan hdrs svc op ftid fsid).spanContext) :
    ∃ stF ctxF respF, beginThenEnd st ctx resp ftid fsid = Except.ok (stF, ctxF, respF) ∧
      stF.spanMap (mkBeganKey hdrs svc op ftid fsid) = none ∧
      (∀ q, q ≠ mkBeganKey hdrs svc op ftid fsid → stF.spanMap q = st.spanMap q) ∧
      stF.endedLog = st.endedLog ++ [(mkBeganSpan hdrs svc op ftid fsid).spanContext] ∧
      ctxF = { ctx with request := some (hset hdrs "traceparent" (mkBeganKey hdrs svc op ftid fsid)) } ∧
      respF.headers =
        inject (hset resp.headers "traceparent" (mkBeganKey hdrs svc op ftid fsid))
          (extract hdrs) := by
  have hrun := add_request_tracing_run st ctx resp ftid fsid hdrs svc op ht hr hs ho
  have hfin := finish_hit_run
    ({ tracer := st.tracer
       spanMap := fun q => if q = mkBeganKey hdrs svc op ftid fsid
         then some (mkBeganSpan hdrs svc op ftid fsid, extract hdrs) else st.spanMap q
       endedLog := st.endedLog
       log := st.log ++ [beginLogEntry hdrs] })
    ({ ctx with request := some (hset hdrs "traceparent" (mkBeganKey hdrs svc op ftid fsid)) })
    ({ resp with headers := hset resp.headers "traceparent" (mkBeganKey hdrs svc op ftid fsid) })
    (hset hdrs "traceparent" (mkBeganKey hdrs svc op ftid fsid))
    (mkBeganKey hdrs svc op ftid fsid)
    ((mkBeganSpan hdrs svc op ftid fsid).spanContext)
    (mkBeganSpan hdrs svc op ftid fsid)
    (extract hdrs)
    ht rfl (hget_hset_self _ _ _) hparse (by simp)
  refine ⟨{ tracer := st.tracer
            spanMap := fun q => if q = mkBeganKey hdrs svc op ftid fsid then none
              else if q = mkBeganKey hdrs svc op ftid fsid
                then some (mkBeganSpan hdrs svc op ftid fsid, extract hdrs) else st.spanMap q
            endedLog := st.endedLog ++ [(mkBeganSpan hdrs svc op ftid fsid).spanContext]
            log := st.log ++ [beginLogEntry hdrs] ++
              [(LogLevel.warning, "response: trace context found")] },
          { ctx with request := some (hset hdrs "traceparent" (mkBeganKey hdrs svc op ftid fsid)) },
          { headers := inject (hset resp.headers "traceparent" (mkBeganKey hdrs svc op ftid fsid))
              (extract hdrs) },
          ?_, ?_, ?_, ?_, rfl, rfl⟩
  · show beginThenEnd st ctx resp ftid fsid = _
    simp only [beginThenEnd, hrun]
    exact hfin
  · simp
  · intro q hq
    simp [hq]
  · simp

/-! ## The claims -/

/-- C1: for every request carrying a valid incoming trace context, running
`begin` (`add_request_tracing`) and then `end` (`finish_request_tracing`) on
the correlated response leaves the response's propagation header equal to the
canonical textual form of that context, regardless of the child context used
internally (the generated identifiers `ftid`/`fsid` are arbitrary, subject to
the id generator's guarantee that span identifiers are non-zero 64-bit
values). -/
theorem parent_preservation (st : ExtState) (ctx : RequestCtx) (resp : Response)
    (ftid fsid : Nat) (hdrs : Headers) (svc : ServiceModel) (op : OperationModel)
    (parentC : SpanContext)
    (ht : st.tracer = true) (hr : ctx.request = some hdrs)
    (hs : ctx.service = some svc) (ho : ctx.operation = some op)
    (hpar : extract hdrs = some parentC)
    (hfsid0 : fsid ≠ 0) (hfsid : fsid < 16 ^ 16) :
    ∃ stF ctxF respF, beginThenEnd st ctx resp ftid fsid = Except.ok (stF, ctxF, respF) ∧
      hget respF.headers "traceparent" = some (serializeSC parentC) := by
  obtain ⟨htid, htlt, -, -, -⟩ := extract_valid hdrs parentC hpar
  have hspan := mkBeganSpan_of_some hdrs svc op ftid fsid parentC hpar
  have hsc : (mkBeganSpan hdrs svc op ftid fsid).spanContext =
      ⟨parentC.traceId, fsid, if parentC.traceFlags % 2 = 1 then 1 else 0⟩ := by rw [hspan]
  have hparse : parseTp (mkBeganKey hdrs svc op ftid fsid) =
      some (mkBeganSpan hdrs svc op ftid fsid).spanContext := by
    rw [mkBeganKey, hsc]
    exact parseTp_serializeSC _ htid htlt hfsid0 hfsid
      (by show (if parentC.traceFlags % 2 = 1 then 1 else 0) < 16 ^ 2; split <;> norm_num)
  obtain ⟨stF, ctxF, respF, hbe, -, -, -, -, hrespF⟩ :=
    beginThenEnd_run st ctx resp ftid fsid hdrs svc op ht hr hs ho hparse
  refine ⟨stF, ctxF, respF, hbe, ?_⟩
  rw [hrespF, hpar, inject_some _ _ (by simp [htid]), hget_hset_self]

/-- Witness for C1 at a concrete run: parent `00-…04d2-…162e-01`, generated
child span id 3. -/
theorem parent_preservation_wit :
    ∃ stF ctxF respF, beginThenEnd wStReady wCtxParent wResp 0 3 = Except.ok (stF, ctxF, respF) ∧
      hget respF.headers "traceparent" = some (serializeSC wParentSC) :=
  parent_preservation wStReady wCtxParent wResp 0 3 wHdrsParent wSvc wOp wParentSC
    rfl rfl rfl rfl (by decide) (by decide) (by decide)

/-- C2 counterexample: a request with no incoming propagation header, run
through `begin` then `end` (fresh trace id 5, fresh span id 7).  The claim says
the response's `traceparent` must be absent afterwards; in fact the run
completes and the response still carries the traceparent injected at `begin`,
because re-injecting the absent stored parent context is a no-op of the
propagator, not a header removal. -/
theorem round_trip_clear_cex :
    runRespTp (beginThenEnd wStReady wCtxRoot wResp 5 7) =
      some (some "00-00000000000000000000000000000005-0000000000000007-01") ∧
      runRespTp (beginThenEnd wStReady wCtxRoot wResp 5 7) ≠ some none := by
  constructor <;> decide

/-- C2 amended: for every request that carries no incoming propagation header,
after `begin` then `end` on the correlated response the root span is retired
(its registry entry popped and its `end()` called), but the response's
`traceparent` header is not cleared: it still holds the correlation key
injected at `begin`, because injecting the absent stored parent context is a
no-op. -/
theorem root_header_retained (st : ExtState) (ctx : RequestCtx) (resp : Response)
    (ftid fsid : Nat) (hdrs : Headers) (svc : ServiceModel) (op : OperationModel)
    (ht : st.tracer = true) (hr : ctx.request = some hdrs)
    (hs : ctx.service = some svc) (ho : ctx.operation = some op)
    (hpar : extract hdrs = none)
    (hftid0 : ftid ≠ 0) (hftid : ftid < 16 ^ 32)
    (hfsid0 : fsid ≠ 0) (hfsid : fsid < 16 ^ 16) :
    ∃ stF ctxF respF, beginThenEnd st ctx resp ftid fsid = Except.ok (stF, ctxF, respF) ∧
      hget respF.headers "traceparent" = some (mkBeganKey hdrs svc op ftid fsid) ∧
      stF.spanMap (mkBeganKey hdrs svc op ftid fsid) = none ∧
      stF.endedLog = st.endedLog ++ [(mkBeganSpan hdrs svc op ftid fsid).spanContext] := by
  have hspan := mkBeganSpan_of_none hdrs svc op ftid fsid hpar
  have hsc : (mkBeganSpan hdrs svc op ftid fsid).spanContext = ⟨ftid, fsid, 1⟩ := by rw [hspan]
  have hparse : parseTp (mkBeganKey hdrs svc op ftid fsid) =
      some (mkBeganSpan hdrs svc op ftid fsid).spanContext := by
    rw [mkBeganKey, hsc]
    exact parseTp_serializeSC _ hftid0 hftid hfsid0 hfsid (by norm_num)
  obtain ⟨stF, ctxF, respF, hbe, hnone, -, hend, -, hrespF⟩ :=
    beginThenEnd_run st ctx resp ftid fsid hdrs svc op ht hr hs ho hparse
  refine ⟨stF, ctxF, respF, hbe, ?_, hnone, hend⟩
  rw [hrespF, hpar]
  exact hget_hset_self _ _ _

/-- Witness for the amended C2 at a concrete run (fresh ids 5 and 7). -/
theorem root_header_retained_wit :
    ∃ stF ctxF respF, beginThenEnd wStReady wCtxRoot wResp 5 7 = Except.ok (stF, ctxF, respF) ∧
      hget respF.headers "traceparent" = some (mkBeganKey emptyHeaders wSvc wOp 5 7) ∧
      stF.spanMap (mkBeganKey emptyHeaders wSvc wOp 5 7) = none ∧
      stF.endedLog = wStReady.endedLog ++ [(mkBeganSpan emptyHeaders wSvc wOp 5 7).spanContext] :=
  root_header_retained wStReady wCtxRoot wResp 5 7 emptyHeaders wSvc wOp
    rfl rfl rfl rfl rfl (by decide) (by decide) (by decide) (by decide)

/-- C3: with the tracer not yet configured, both hooks return normally and
leave the whole extension state, the request context (hence its headers) and
the response (hence its headers) exactly as they were. -/
theorem early_exit_no_tracer (st : ExtState) (ctx : RequestCtx) (resp : Response)
    (ftid fsid : Nat) (ht : st.tracer = false) :
    add_request_tracing st ctx resp ftid fsid = Except.ok (st, ctx, resp) ∧
      finish_request_tracing st ctx resp = Except.ok (st, ctx, resp) := by
  constructor <;> simp [add_request_tracing, finish_request_tracing, ht]

/-- Witness for C3 on a concrete unconfigured state. -/
theorem early_exit_no_tracer_wit :
    add_request_tracing wStOff wCtxParent wResp 0 0 = Except.ok (wStOff, wCtxParent, wResp) ∧
      finish_request_tracing wStOff wCtxParent wResp = Except.ok (wStOff, wCtxParent, wResp) :=
  early_exit_no_tracer wStOff wCtxParent wResp 0 0 rfl

/-- C4: for a registered correlation key `k`, two consecutive `end` calls on
responses carrying `k` perform exactly one successful pop (the entry is gone
after the first call) and one no-op (the second call returns its inputs with
only a log line), and the stored span's `end()` runs exactly once: the
end-event log gains exactly the one entry for that span across both calls. -/
theorem at_most_once_retirement (st : ExtState) (ctx1 ctx2 : RequestCtx)
    (resp1 resp2 : Response) (hdrs1 hdrs2 : Headers) (k : String) (c : SpanContext)
    (span : SpanRec) (oldc : Option SpanContext)
    (ht : st.tracer = true)
    (hr1 : ctx1.request = some hdrs1) (hr2 : ctx2.request = some hdrs2)
    (hk1 : hget resp1.headers "traceparent" = some k)
    (hk2 : hget resp2.headers "traceparent" = some k)
    (hp : parseTp k = some c)
    (hhit : st.spanMap k = some (span, oldc)) :
    ∃ st1 resp1F, finish_request_tracing st ctx1 resp1 = Except.ok (st1, ctx1, resp1F) ∧
      st1.spanMap k = none ∧
      st1.endedLog = st.endedLog ++ [span.spanContext] ∧
      ∃ st2, finish_request_tracing st1 ctx2 resp2 = Except.ok (st2, ctx2, resp2) ∧
        st2.spanMap = st1.spanMap ∧ st2.endedLog = st.endedLog ++ [span.spanContext] := by
  have h1 := finish_hit_run st ctx1 resp1 hdrs1 k c span oldc ht hr1 hk1 hp hhit
  refine ⟨_, _, h1, by simp, rfl, ?_⟩
  have h2 := finish_miss_run
    ({ tracer := st.tracer
       spanMap := fun q => if q = k then none else st.spanMap q
       endedLog := st.endedLog ++ [span.spanContext]
       log := st.log ++ [(LogLevel.warning, "response: trace context found")] })
    ctx2 resp2 hdrs2 k c ht hr2 hk2 hp (by simp)
  exact ⟨_, h2, rfl, rfl⟩

/-- Witness for C4 on a concrete registry holding one child-span entry,
retiring it twice. -/
theorem at_most_once_retirement_wit :
    ∃ st1 resp1F, finish_request_tracing wStEntry wCtxParent wRespChild =
        Except.ok (st1, wCtxParent, resp1F) ∧
      st1.spanMap wChildTp = none ∧
      st1.endedLog = wStEntry.endedLog ++ [wSpan.spanContext] ∧
      ∃ st2, finish_request_tracing st1 wCtxRoot wRespChild = Except.ok (st2, wCtxRoot, wRespChild) ∧
        st2.spanMap = st1.spanMap ∧ st2.endedLog = wStEntry.endedLog ++ [wSpan.spanContext] :=
  at_most_once_retirement wStEntry wCtxParent wCtxRoot wRespChild wRespChild
    wHdrsParent emptyHeaders wChildTp wChildSC wSpan (some wParentSC)
    rfl rfl rfl (by decide) (by decide) (by decide) (by decide)

/-- C5: in a `begin` call that passes all early exits, the created span is a
child span named `<service>.<operation>` (the rendered service and operation
joined by a dot) whose parent is the extracted context when one is present,
and a parentless root span named `root` when none is; in both cases the span's
attributes are set to the service name and the operation name. -/
theorem span_creation (st : ExtState) (ctx : RequestCtx) (resp : Response)
    (ftid fsid : Nat) (hdrs : Headers) (svc : ServiceModel) (op : OperationModel)
    (ht : st.tracer = true) (hr : ctx.request = some hdrs)
    (hs : ctx.service = some svc) (ho : ctx.operation = some op) :
    ∃ stF ctxF respF, add_request_tracing st ctx resp ftid fsid = Except.ok (stF, ctxF, respF) ∧
      stF.spanMap (mkBeganKey hdrs svc op ftid fsid) =
        some (mkBeganSpan hdrs svc op ftid fsid, extract hdrs) ∧
      (∀ p, extract hdrs = some p →
        (mkBeganSpan hdrs svc op ftid fsid).name = svc.str ++ "." ++ op.str ∧
        (mkBeganSpan hdrs svc op ftid fsid).parent = some p) ∧
      (extract hdrs = none →
        (mkBeganSpan hdrs svc op ftid fsid).name = "root" ∧
        (mkBeganSpan hdrs svc op ftid fsid).parent = none) ∧
      (mkBeganSpan hdrs svc op ftid fsid).attributes =
        [("service", svc.serviceName), ("operation", op.name)] := by
  refine ⟨_, _, _, add_request_tracing_run st ctx resp ftid fsid hdrs svc op ht hr hs ho,
    by simp, ?_, ?_, ?_⟩
  · intro p hp
    rw [mkBeganSpan_of_some hdrs svc op ftid fsid p hp]
    exact ⟨rfl, rfl⟩
  · intro hp
    rw [mkBeganSpan_of_none hdrs svc op ftid fsid hp]
    exact ⟨rfl, rfl⟩
  · cases hx : extract hdrs with
    | some p => rw [mkBeganSpan_of_some hdrs svc op ftid fsid p hx]
    | none => rw [mkBeganSpan_of_none hdrs svc op ftid fsid hx]

/-- Witness for C5 on a concrete request carrying a parent context. -/
theorem span_creation_wit :
    ∃ stF ctxF respF, add_request_tracing wStReady wCtxParent wResp 0 3 =
        Except.ok (stF, ctxF, respF) ∧
      stF.spanMap (mkBeganKey wHdrsParent wSvc wOp 0 3) =
        some (mkBeganSpan wHdrsParent wSvc wOp 0 3, extract wHdrsParent) ∧
      (∀ p, extract wHdrsParent = some p →
        (mkBeganSpan wHdrsParent wSvc wOp 0 3).name = wSvc.str ++ "." ++ wOp.str ∧
        (mkBeganSpan wHdrsParent wSvc wOp 0 3).parent = some p) ∧
      (extract wHdrsParent = none →
        (mkBeganSpan wHdrsParent wSvc wOp 0 3).name = "root" ∧
        (mkBeganSpan wHdrsParent wSvc wOp 0 3).parent = none) ∧
      (mkBeganSpan wHdrsParent wSvc wOp 0 3).attributes =
        [("service", wSvc.serviceName), ("operation", wOp.name)] :=
  span_creation wStReady wCtxParent wResp 0 3 wHdrsParent wSvc wOp rfl rfl rfl rfl

/-- C6: after a `begin` call that passes all early exits, one and the same
correlation key is (a) the `traceparent` value actually present in the request
headers after injection, (b) the key under which the registry stores the pair
of the newly created span and the pre-existing parent context, and (c) the
`traceparent` value carried by the response headers. -/
theorem correlation_key_consistency (st : ExtState) (ctx : RequestCtx) (resp : Response)
    (ftid fsid : Nat) (hdrs : Headers) (svc : ServiceModel) (op : OperationModel)
    (ht : st.tracer = true) (hr : ctx.request = some hdrs)
    (hs : ctx.service = some svc) (ho : ctx.operation = some op) :
    ∃ stF ctxF respF key,
      add_request_tracing st ctx resp ftid fsid = Except.ok (stF, ctxF, respF) ∧
      ctxF.request = some (hset hdrs "traceparent" key) ∧
      hget (hset hdrs "traceparent" key) "traceparent" = some key ∧
      stF.spanMap key = some (mkBeganSpan hdrs svc op ftid fsid, extract hdrs) ∧
      hget respF.headers "traceparent" = some key := by
  refine ⟨_, _, _, mkBeganKey hdrs svc op ftid fsid,
    add_request_tracing_run st ctx resp ftid fsid hdrs svc op ht hr hs ho,
    rfl, hget_hset_self _ _ _, by simp, ?_⟩
  exact hget_hset_self _ _ _

/-- Witness for C6 on a concrete request carrying a parent context. -/
theorem correlation_key_consistency_wit :
    ∃ stF ctxF respF key,
      add_request_tracing wStReady wCtxParent wResp 0 3 = Except.ok (stF, ctxF, respF) ∧
      ctxF.request = some (hset wHdrsParent "traceparent" key) ∧
      hget (hset wHdrsParent "traceparent" key) "traceparent" = some key ∧
      stF.spanMap key = some (mkBeganSpan wHdrsParent wSvc wOp 0 3, extract wHdrsParent) ∧
      hget respF.headers "traceparent" = some key :=
  correlation_key_consistency wStReady wCtxParent wResp 0 3 wHdrsParent wSvc wOp
    rfl rfl rfl rfl

/-- C7: when `end` extracts a valid trace context from the response headers
but the correlation key is not in the registry, it returns normally with the
request context and the response unchanged, the registry unchanged and no span
ended. -/
theorem end_unregistered_noop (st : ExtState) (ctx : RequestCtx) (resp : Response)
    (hdrs : Headers) (k : String) (c : SpanContext)
    (ht : st.tracer = true) (hr : ctx.request = some hdrs)
    (hk : hget resp.headers "traceparent" = some k) (hp : parseTp k = some c)
    (hmiss : st.spanMap k = none) :
    ∃ stF, finish_request_tracing st ctx resp = Except.ok (stF, ctx, resp) ∧
      stF.spanMap = st.spanMap ∧ stF.endedLog = st.endedLog :=
  ⟨_, finish_miss_run st ctx resp hdrs k c ht hr hk hp hmiss, rfl, rfl⟩

/-- Witness for C7: a response carrying a valid key against an empty registry. -/
theorem end_unregistered_noop_wit :
    ∃ stF, finish_request_tracing wStReady wCtxParent wRespChild =
        Except.ok (stF, wCtxParent, wRespChild) ∧
      stF.spanMap = wStReady.spanMap ∧ stF.endedLog = wStReady.endedLog :=
  end_unregistered_noop wStReady wCtxParent wRespChild wHdrsParent wChildTp wChildSC
    rfl rfl (by decide) (by decide) rfl

/-- C8: when `end` cannot extract a trace context from the response headers it
reports the condition on the error log and returns normally, leaving the
request context, the response, the registry and the end-event log unchanged. -/
theorem end_no_context_reports (st : ExtState) (ctx : RequestCtx) (resp : Response)
    (hdrs : Headers) (ht : st.tracer = true) (hr : ctx.request = some hdrs)
    (hx : extract resp.headers = none) :
    ∃ stF, finish_request_tracing st ctx resp = Except.ok (stF, ctx, resp) ∧
      stF.log = st.log ++ [(LogLevel.error, "response: no trace context found")] ∧
      stF.spanMap = st.spanMap ∧ stF.endedLog = st.endedLog :=
  ⟨_, finish_noContext_run st ctx resp hdrs ht hr hx, rfl, rfl, rfl⟩

/-- Witness for C8: a response with no headers at all. -/
theorem end_no_context_reports_wit :
    ∃ stF, finish_request_tracing wStReady wCtxParent wResp =
        Except.ok (stF, wCtxParent, wResp) ∧
      stF.log = wStReady.log ++ [(LogLevel.error, "response: no trace context found")] ∧
      stF.spanMap = wStReady.spanMap ∧ stF.endedLog = wStReady.endedLog :=
  end_no_context_reports wStReady wCtxParent wResp wHdrsParent rfl rfl rfl

/-- C9: on every input whatsoever, both hooks return normally (`Except.ok`):
no branch of either hook raises, every failure condition degrades to a normal
return. -/
theorem hooks_never_raise (st : ExtState) (ctx : RequestCtx) (resp : Response)
    (ftid fsid : Nat) :
    (∃ out, add_request_tracing st ctx resp ftid fsid = Except.ok out) ∧
      (∃ out, finish_request_tracing st ctx resp = Except.ok out) := by
  constructor
  · cases hb : st.tracer with
    | false => exact ⟨(st, ctx, resp), by simp [add_request_tracing, hb]⟩
    | true =>
      cases hr : ctx.request with
      | none => exact ⟨(st, ctx, resp), by simp [add_request_tracing, hb, hr]⟩
      | some hdrs =>
        cases hs : ctx.service with
        | none => exact ⟨(st, ctx, resp), by simp [add_request_tracing, hb, hr, hs]⟩
        | some svc =>
          cases ho : ctx.operation with
          | none => exact ⟨(st, ctx, resp), by simp [add_request_tracing, hb, hr, hs, ho]⟩
          | some op =>
            exact ⟨_, add_request_tracing_run st ctx resp ftid fsid hdrs svc op hb hr hs ho⟩
  · cases hb : st.tracer with
    | false => exact ⟨(st, ctx, resp), by simp [finish_request_tracing, hb]⟩
    | true =>
      cases hr : ctx.request with
      | none => exact ⟨(st, ctx, resp), by simp [finish_request_tracing, hb, hr]⟩
      | some hdrs =>
        cases hx : extract resp.headers with
        | none => exact ⟨_, finish_noContext_run st ctx resp hdrs hb hr hx⟩
        | some c =>
          have hkp : ∃ k, hget resp.headers "traceparent" = some k ∧ parseTp k = some c := by
            unfold extract at hx
            cases hg : hget resp.headers "traceparent" with
            | none => rw [hg] at hx; exact absurd hx (by simp)
            | some s => rw [hg] at hx; exact ⟨s, rfl, hx⟩
          obtain ⟨k, hk, hp⟩ := hkp
          cases hm : st.spanMap k with
          | none => exact ⟨_, finish_miss_run st ctx resp hdrs k c hb hr hk hp hm⟩
          | some e =>
            obtain ⟨span, oldc⟩ := e
            exact ⟨_, finish_hit_run st ctx resp hdrs k c span oldc hb hr hk hp hm⟩

/-- C10: a successful `end` removes exactly the entry keyed by the response's
`traceparent` value, leaves every other registry entry in place, and returns
the request context untouched (only the response headers and the registry are
mutated). -/
theorem end_frame (st : ExtState) (ctx : RequestCtx) (resp : Response)
    (hdrs : Headers) (k : String) (c : SpanContext) (span : SpanRec)
    (oldc : Option SpanContext)
    (ht : st.tracer = true) (hr : ctx.request = some hdrs)
    (hk : hget resp.headers "traceparent" = some k) (hp : parseTp k = some c)
    (hhit : st.spanMap k = some (span, oldc)) :
    ∃ stF respF, finish_request_tracing st ctx resp = Except.ok (stF, ctx, respF) ∧
      stF.spanMap k = none ∧
      (∀ q, q ≠ k → stF.spanMap q = st.spanMap q) := by
  refine ⟨_, _, finish_hit_run st ctx resp hdrs k c span oldc ht hr hk hp hhit, by simp, ?_⟩
  intro q hq
  simp [hq]

/-- Witness for C10 on a registry holding the child entry and one other key
left untouched. -/
theorem end_frame_wit :
    ∃ stF respF, finish_request_tracing wStEntry wCtxParent wRespChild =
        Except.ok (stF, wCtxParent, respF) ∧
      stF.spanMap wChildTp = none ∧
      (∀ q, q ≠ wChildTp → stF.spanMap q = wStEntry.spanMap q) :=
  end_frame wStEntry wCtxParent wRespChild wHdrsParent wChildTp wChildSC wSpan
    (some wParentSC) rfl rfl (by decide) (by decide) (by decide)

end OTelExt
